import Mathlib

/-!
# ECALL trampoline of the skeleton PAL (`sgx_call.h`)

A shallow embedding of `rune/libenclave/internal/runtime/pal/skeleton/sgx_call.h`:
the protocol constants, the `ENCLU` byte directive, and the statement expression
`SGX_ENTER_1_ARG`, whose inline assembly is run on a small x86-64 register machine.
The macro works on the text of its arguments: the ordinal is an expression tree, and the
operand `(uint64_t)ecall_num` is evaluated the way the compiler parses the pasted text.
`sgx_ecall` is not defined in the header: the machine takes it as a parameter, a state
transformer on the world outside the trampoline, and records every transfer of control
to it.
-/

namespace SgxCall

/-! ## Constants of the header -/

/-- The header line `#define ECALL_MAGIC 0`. -/
def ECALL_MAGIC : Nat := 0

/-- The header line `#define MAX_ECALLS 1`. -/
def MAX_ECALLS : Nat := 1

/-- The header line `#define EEXIT 4`. -/
def EEXIT : Nat := 4

/-- The header line `#define INIT_MAGIC 0xdeadfacedeadbeefUL`. -/
def INIT_MAGIC : Nat := 0xdeadfacedeadbeef

/-- The header line `#define ENCLU ".byte 0x0f, 0x01, 0xd7"` (the branch without `__ASSEMBLER__`):
the text of the string literal spliced into inline assembly. -/
def ENCLU : String := ".byte 0x0f, 0x01, 0xd7"

/-- The header line `#define ENCLU .byte 0x0f, 0x01, 0xd7` (the `__ASSEMBLER__` branch): the text of the
directive as the assembler reads it. -/
def ENCLU_ASSEMBLER : String := ".byte 0x0f, 0x01, 0xd7"

/-! ## The `.byte` directive -/

/-- Value of one hexadecimal digit. -/
def hexDigit (c : Char) : Option Nat :=
  if '0' ≤ c ∧ c ≤ '9' then some (c.toNat - '0'.toNat)
  else if 'a' ≤ c ∧ c ≤ 'f' then some (c.toNat - 'a'.toNat + 10)
  else if 'A' ≤ c ∧ c ≤ 'F' then some (c.toNat - 'A'.toNat + 10)
  else none

/-- Value of a run of hexadecimal digits, most significant first. -/
def hexValue : List Char → Nat → Option Nat
  | [], acc => some acc
  | c :: cs, acc =>
    match hexDigit c with
    | some d => hexValue cs (16 * acc + d)
    | none => none

/-- One operand of `.byte`: blanks are skipped, then `0x` and at least one digit; the value
has to fit a byte. -/
def byteOperand (tok : List Char) : Option Nat :=
  match tok.filter (fun c => c ≠ ' ') with
  | '0' :: 'x' :: d :: ds =>
    match hexValue (d :: ds) 0 with
    | some v => if v < 256 then some v else none
    | none => none
  | _ => none

/-- Cut a line at every occurrence of `sep`. -/
def splitAt (sep : Char) : List Char → List (List Char)
  | [] => [[]]
  | c :: cs =>
    if c = sep then [] :: splitAt sep cs
    else
      match splitAt sep cs with
      | [] => [[c]]
      | tok :: toks => (c :: tok) :: toks

/-- All operands of a comma separated list, or nothing when one of them is malformed. -/
def byteOperands : List (List Char) → Option (List Nat)
  | [] => some []
  | tok :: toks =>
    match byteOperand tok, byteOperands toks with
    | some b, some bs => some (b :: bs)
    | _, _ => none

/-- Bytes emitted by the assembler for a line `.byte b1, b2, ...`. -/
def assembleByteDirective (line : String) : Option (List Nat) :=
  match line.toList with
  | '.' :: 'b' :: 'y' :: 't' :: 'e' :: ' ' :: rest => byteOperands (splitAt ',' rest)
  | _ => none

/-! ## The ordinal argument as written

`SGX_ENTER_1_ARG` is a macro: `ecall_num` stands for the tokens of the argument, and the
header writes the operand as `(uint64_t)ecall_num`, without parentheses around
`ecall_num`. The trees below are the parse trees of an additive expression of C over
signed operands: the operators `*`, `/`, `%`, `+`, `-` and parentheses. -/

/-- The signed integer types an ordinal is written with: `int` (32 bits) and `long`
(64 bits). -/
inductive CType
  | int | long
  deriving DecidableEq, Repr

/-- Width of a type in bits. -/
def CType.bits : CType → Nat
  | .int => 32
  | .long => 64

/-- The values a signed type can represent. -/
def CType.holds (t : CType) (v : Int) : Bool :=
  decide (-2 ^ (t.bits - 1) ≤ v) && decide (v < 2 ^ (t.bits - 1))

/-- Type of the result of a binary operator on two signed operands (usual arithmetic
conversions): `long` as soon as one operand is `long`. -/
def CType.join : CType → CType → CType
  | .int, .int => .int
  | _, _ => .long

/-- The three levels of the grammar: primary, multiplicative and additive expressions. -/
inductive Lvl
  | primary | multiplicative | additive
  deriving DecidableEq, Repr

/-- Multiplicative operators `*`, `/`, `%`. -/
inductive MulOp
  | mul | div | rem
  deriving DecidableEq, Repr

/-- Additive operators `+`, `-`. -/
inductive AddOp
  | add | sub
  deriving DecidableEq, Repr

/-- Parse trees. An operand is a constant or a variable (with its sign, if any) of type `t`
holding `v`; `paren` is an expression between parentheses; `mulop` and `addop` are left
associative, as in C. -/
inductive CExpr : Lvl → Type
  | operand (t : CType) (v : Int) : CExpr .primary
  | paren (e : CExpr .additive) : CExpr .primary
  | prim (e : CExpr .primary) : CExpr .multiplicative
  | mulop (op : MulOp) (l : CExpr .multiplicative) (r : CExpr .primary) : CExpr .multiplicative
  | mult (e : CExpr .multiplicative) : CExpr .additive
  | addop (op : AddOp) (l : CExpr .additive) (r : CExpr .multiplicative) : CExpr .additive

/-- An argument written as one operand `v` of type `t`. -/
def CExpr.lit (t : CType) (v : Int) : CExpr .additive :=
  .mult (.prim (.operand t v))

/-- An argument written `a op b` with two operands and a multiplicative operator. -/
def CExpr.binary (op : MulOp) (ta : CType) (a : Int) (tb : CType) (b : Int) : CExpr .additive :=
  .mult (.mulop op (.prim (.operand ta a)) (.operand tb b))

/-- An argument written with parentheses around it. -/
def CExpr.wrapped (e : CExpr .additive) : CExpr .additive :=
  .mult (.prim (.paren e))

/-- Whether the argument is a single operand or parenthesised, so that a cast written in
front of it applies to all of it. -/
def CExpr.isOperand : CExpr .additive → Bool
  | .mult (.prim _) => true
  | _ => false

/-- Signed `*`, `/`, `%`: division truncates toward zero, and a zero divisor or a quotient
out of the result type is undefined. -/
def MulOp.signed (t : CType) : MulOp → Int → Int → Option Int
  | .mul, a, b => some (a * b)
  | .div, a, b => if b = 0 then none else some (Int.tdiv a b)
  | .rem, a, b => if b = 0 ∨ t.holds (Int.tdiv a b) = false then none else some (Int.tmod a b)

/-- Unsigned 64-bit `*`, `/`, `%`: multiplication wraps, a zero divisor is undefined. -/
def MulOp.unsigned : MulOp → Nat → Nat → Option Nat
  | .mul, a, b => some (a * b % 2 ^ 64)
  | .div, a, b => if b = 0 then none else some (a / b)
  | .rem, a, b => if b = 0 then none else some (a % b)

/-- Signed `+`, `-`. -/
def AddOp.signed : AddOp → Int → Int → Int
  | .add, a, b => a + b
  | .sub, a, b => a - b

/-- Unsigned 64-bit `+`, `-`, both wrapping. -/
def AddOp.unsigned : AddOp → Nat → Nat → Nat
  | .add, a, b => (a + b) % 2 ^ 64
  | .sub, a, b => (a % 2 ^ 64 + 2 ^ 64 - b % 2 ^ 64) % 2 ^ 64

/-- Value and type of an expression in C, all operands being signed; nothing when the
behaviour is undefined (an operand out of its type, signed overflow, a zero divisor). -/
def CExpr.eval : {l : Lvl} → CExpr l → Option (CType × Int)
  | _, .operand t v => if t.holds v then some (t, v) else none
  | _, .paren e => e.eval
  | _, .prim e => e.eval
  | _, .mult e => e.eval
  | _, .mulop op l r =>
    match l.eval, r.eval with
    | some (tl, a), some (tr, b) =>
      match op.signed (tl.join tr) a b with
      | some v => if (tl.join tr).holds v then some (tl.join tr, v) else none
      | none => none
    | _, _ => none
  | _, .addop op l r =>
    match l.eval, r.eval with
    | some (tl, a), some (tr, b) =>
      if (tl.join tr).holds (op.signed a b) then some (tl.join tr, op.signed a b) else none
    | _, _ => none

/-- The ordinal the caller wrote: the value of the argument as an expression of C. -/
def CExpr.value {l : Lvl} (e : CExpr l) : Option Int :=
  e.eval.map (fun tv => tv.2)

/-- The cast `(uint64_t)x` of a signed value: reduction modulo `2^64`. -/
def cast_uint64 (n : Int) : Nat := (n % 2 ^ 64).toNat

/-- Value of the operand `(uint64_t)ecall_num`, the cast followed by the tokens of the
argument. A cast binds tighter than every binary operator, so it applies to the leftmost
operand only (to all of a parenthesised argument); every operator on the way up then has
an unsigned 64-bit left operand, its right operand is evaluated as written and converted,
and the operation is the unsigned one. -/
def CExpr.evalCast : {l : Lvl} → CExpr l → Option Nat
  | _, .operand t v => if t.holds v then some (cast_uint64 v) else none
  | _, .paren e => e.eval.map (fun tv => cast_uint64 tv.2)
  | _, .prim e => e.evalCast
  | _, .mult e => e.evalCast
  | _, .mulop op l r =>
    match l.evalCast, r.eval with
    | some a, some (_, b) => op.unsigned a (cast_uint64 b)
    | _, _ => none
  | _, .addop op l r =>
    match l.evalCast, r.eval with
    | some a, some (_, b) => some (op.unsigned a (cast_uint64 b))
    | _, _ => none

/-! ## The status -/

/-- The output `int __ret` bound to `"=a"`: the compiler reads `eax`, the low 32 bits of
`rax`, as a two's-complement `int`. Bit 31 weighs `-2^31`, the 31 bits below it keep their
weight. -/
def int_ret (rax : Nat) : Int :=
  Int.ofNat (rax % 2 ^ 31) - (if rax.testBit 31 then 2 ^ 31 else 0)

/-- Two's-complement reading of a 32-bit pattern, as the status is described: a pattern
below `2^31` stands for itself, any other for itself minus `2^32`. -/
def toSigned32 (x : Nat) : Int :=
  if x < 2 ^ 31 then Int.ofNat x else Int.ofNat x - 2 ^ 32

/-! ## Register machine -/

/-- The sixteen general purpose registers of x86-64. -/
inductive Reg
  | rax | rbx | rcx | rdx | rsi | rdi | rbp | rsp
  | r8 | r9 | r10 | r11 | r12 | r13 | r14 | r15
  deriving DecidableEq, Repr

/-- Contents of the register file. -/
abbrev RegFile := Reg → Nat

/-- Write `v` to register `r`. -/
def RegFile.set (rf : RegFile) (r : Reg) (v : Nat) : RegFile :=
  fun x => if x = r then v else rf x

/-- What `sgx_ecall` finds in the three registers of the call convention when control
reaches it. -/
structure EnterArgs where
  r10 : Nat
  r11 : Nat
  rdi : Nat
  deriving DecidableEq, Repr

/-- Machine state: the registers, the world outside the trampoline (everything `sgx_ecall`
can read or change besides the registers), and the record of the transfers of control to
`sgx_ecall`, oldest first. -/
structure Machine (σ : Type) where
  regs : RegFile
  world : σ
  entered : List EnterArgs

/-- The two instructions the template uses, AT&T operand order (`mov src, dst`). -/
inductive Instr
  | mov (src dst : Reg)
  | call_sgx_ecall
  deriving DecidableEq, Repr

/-- One instruction. `call sgx_ecall` records the registers of the call convention and
hands registers and world to the callee; the return address, pushed by `call` and popped by
the callee's `ret`, is left out. -/
def exec {σ : Type} (sgx_ecall : σ → RegFile → σ × RegFile) : Instr → Machine σ → Machine σ
  | .mov src dst, m => { m with regs := m.regs.set dst (m.regs src) }
  | .call_sgx_ecall, m =>
    { regs := (sgx_ecall m.world m.regs).2
      world := (sgx_ecall m.world m.regs).1
      entered := m.entered ++ [⟨m.regs .r10, m.regs .r11, m.regs .rdi⟩] }

/-- A straight-line sequence of instructions. -/
def run {σ : Type} (sgx_ecall : σ → RegFile → σ × RegFile) : List Instr → Machine σ → Machine σ
  | [], m => m
  | i :: is, m => run sgx_ecall is (exec sgx_ecall i m)

/-- The assembler template of `SGX_ENTER_1_ARG`, with `%1` and `%2` replaced by the
registers the compiler picked for the two `"r"` operands:
`mov %1, %%r10; mov %2, %%r11; call sgx_ecall`. -/
def asmTemplate (op1 op2 : Reg) : List Instr :=
  [.mov op1 .r10, .mov op2 .r11, .call_sgx_ecall]

/-- The compiler's part before the template: the value `ord` of the operand
`(uint64_t)ecall_num` is put in the register of `%1`, `(tcs)` in the register of `%2`, and
`(a0)` in `rdi` (constraint `"D"`). -/
def loadInputs (rf : RegFile) (op1 op2 : Reg) (ord tcs a0 : Nat) : RegFile :=
  ((rf.set op1 ord).set op2 (tcs % 2 ^ 64)).set .rdi (a0 % 2 ^ 64)

/-- An allocation of the two `"r"` operands the constraints allow: neither is a clobbered
register (`r10`, `r11`) nor the register tied to `a0` (`rdi`), and both share a register
only when they hold the same value. -/
def ValidAlloc (op1 op2 : Reg) (ord tcs : Nat) : Prop :=
  op1 ≠ .r10 ∧ op1 ≠ .r11 ∧ op1 ≠ .rdi ∧ op2 ≠ .r10 ∧ op2 ≠ .r11 ∧ op2 ≠ .rdi ∧
    (op1 = op2 → ord = tcs % 2 ^ 64)

instance (op1 op2 : Reg) (ord tcs : Nat) : Decidable (ValidAlloc op1 op2 ord tcs) := by
  unfold ValidAlloc
  infer_instance

/-- Machine state when the `asm volatile` statement is over, `ord` being the value of its
operand `%1`. -/
def asmStatement {σ : Type} (sgx_ecall : σ → RegFile → σ × RegFile)
    (op1 op2 : Reg) (rf : RegFile) (w : σ) (ord tcs a0 : Nat) : Machine σ :=
  run sgx_ecall (asmTemplate op1 op2)
    { regs := loadInputs rf op1 op2 ord tcs a0, world := w, entered := [] }

/-- Machine state when the `asm volatile` statement of `SGX_ENTER_1_ARG(ecall_num, tcs, a0)`
is over, for the argument `ecall_num` as written; nothing when the operand
`(uint64_t)ecall_num` has no defined value. -/
def SGX_ENTER_1_ARG_asm {σ : Type} (sgx_ecall : σ → RegFile → σ × RegFile)
    (op1 op2 : Reg) (rf : RegFile) (w : σ) (ecall_num : CExpr .additive) (tcs a0 : Nat) :
    Option (Machine σ) :=
  ecall_num.evalCast.map (fun ord => asmStatement sgx_ecall op1 op2 rf w ord tcs a0)

/-- Value of the statement expression `SGX_ENTER_1_ARG(ecall_num, tcs, a0)`: `__ret`. -/
def SGX_ENTER_1_ARG {σ : Type} (sgx_ecall : σ → RegFile → σ × RegFile)
    (op1 op2 : Reg) (rf : RegFile) (w : σ) (ecall_num : CExpr .additive) (tcs a0 : Nat) :
    Option Int :=
  (SGX_ENTER_1_ARG_asm sgx_ecall op1 op2 rf w ecall_num tcs a0).map
    (fun m => int_ret (m.regs .rax))

/-- Registers as `call sgx_ecall` finds them, after the two moves of the template. -/
def stagedRegs (op1 op2 : Reg) (rf : RegFile) (ord tcs a0 : Nat) : RegFile :=
  (run (σ := Unit) (fun w r => (w, r)) [.mov op1 .r10, .mov op2 .r11]
    { regs := loadInputs rf op1 op2 ord tcs a0, world := (), entered := [] }).regs

/-- A callee that does nothing but leave `r` in `rax`; it stands in for `sgx_ecall` where
only the value carried back matters. -/
def leaves (r : Nat) : Unit → RegFile → Unit × RegFile :=
  fun w rf => (w, rf.set .rax r)

/-- A callee that touches nothing: a stand-in for `sgx_ecall` without a transition. -/
def noTransition : Unit → RegFile → Unit × RegFile :=
  fun w rf => (w, rf)

/-! ## Two calls in parallel -/

/-- Modelled from the spec: enclave-local memory (the enclave's data is missing from the
sources), a word per address. -/
abbrev EnclaveMem := Nat → Nat

/-- Modelled from the spec: a handler of the Call Table (the handlers are missing from the
sources). It runs inside the enclave on the enclave's memory, with the context handle and
the single argument, and gives the memory it leaves and the value carried back by Exit. -/
abbrev Handler := EnclaveMem → Nat → Nat → EnclaveMem × Nat

/-- Modelled from the spec: the status codes OutOfRange, NotInitialized and Fatal (missing
from the sources, which define none). Each is an `int`, the type of the status; OutOfRange
and NotInitialized are negative; the three are distinct status values. -/
structure StatusCodes where
  outOfRange : Int
  notInit : Int
  fatal : Int
  fits : (-2 ^ 31 ≤ outOfRange ∧ outOfRange < 2 ^ 31) ∧ (-2 ^ 31 ≤ notInit ∧ notInit < 2 ^ 31) ∧
    (-2 ^ 31 ≤ fatal ∧ fatal < 2 ^ 31)
  negative : outOfRange < 0 ∧ notInit < 0
  distinct : outOfRange ≠ notInit ∧ outOfRange ≠ fatal ∧ notInit ≠ fatal

/-- Modelled from the spec: what is fixed when an enclave is built (the call table, the
sentinel location, the execution contexts and the status codes are missing from the
sources). The Call Table maps each ordinal below `MAX_ECALLS` to its handler; the sentinel
lives at a known enclave-local location; `handles` are the well-formed execution-context
handles of the enclave. -/
structure Enclave where
  table : Fin MAX_ECALLS → Handler
  sentinelLoc : Nat
  handles : List Nat
  codes : StatusCodes

/-- Modelled from the spec: the state of the enclave as calls go by (missing from the
sources), its memory, the ordinals of the handlers that have executed (oldest first), the
handles in use by another logical processor, and whether the enclave is runnable. -/
structure EnclaveWorld where
  mem : EnclaveMem
  executed : List Nat
  inUse : List Nat
  runnable : Bool

/-- Modelled from the spec: the condition under which Enter succeeds (missing from the
sources). Enter fails when the handle is malformed, already in use by another logical
processor, or the enclave is not in a runnable state. -/
def enterable (e : Enclave) (w : EnclaveWorld) (tcs : Nat) : Bool :=
  decide (tcs ∈ e.handles) && !decide (tcs ∈ w.inUse) && w.runnable

/-- Modelled from the spec: the Initialization Guard `check() -> ok | NotInitialized`
(missing from the sources). It reads the sentinel location and compares it with the
expected constant. -/
def check (e : Enclave) (mem : EnclaveMem) : Bool :=
  decide (mem e.sentinelLoc = INIT_MAGIC)

/-- Modelled from the spec: the Call Table contract
`resolve(ordinal) -> handler-reference | error` (missing from the sources). -/
def resolve (e : Enclave) (ordinal : Nat) : Option Handler :=
  if h : ordinal < MAX_ECALLS then some (e.table ⟨ordinal, h⟩) else none

/-- Modelled from the spec: the enclave dispatcher behind the entry point (missing from the
sources). It consults the Initialization Guard, then the Call Table, then runs the handler;
the value it gives is the one Exit carries back in the return register. -/
def dispatch (e : Enclave) (w : EnclaveWorld) (ordinal tcs a0 : Nat) : EnclaveWorld × Nat :=
  if check e w.mem then
    match resolve e ordinal with
    | some h =>
      ({ w with mem := (h w.mem tcs a0).1, executed := w.executed ++ [ordinal] },
        (h w.mem tcs a0).2 % 2 ^ 64)
    | none => (w, cast_uint64 e.codes.outOfRange)
  else (w, cast_uint64 e.codes.notInit)

/-- Modelled from the spec: `sgx_ecall` (missing from the sources), the Enter primitive
`enter(handle, ordinal, arg) -> raw_result` with the handle in `r11`, the ordinal in `r10`
and the argument in `rdi`; the raw result comes back in `rax`. When Enter fails the
dispatcher is never reached, nothing changes in the enclave and the Fatal status is what
the host gets. -/
def enclave_sgx_ecall (e : Enclave) : EnclaveWorld → RegFile → EnclaveWorld × RegFile :=
  fun w rf =>
    if enterable e w (rf .r11) then
      ((dispatch e w (rf .r10) (rf .r11) (rf .rdi)).1,
        rf.set .rax (dispatch e w (rf .r10) (rf .r11) (rf .rdi)).2)
    else (w, rf.set .rax (cast_uint64 e.codes.fatal))

/-- Status codes used in the examples: OutOfRange -1, NotInitialized -2, Fatal -3. -/
def sampleCodes : StatusCodes :=
  { outOfRange := -1, notInit := -2, fatal := -3,
    fits := by decide, negative := by decide, distinct := by decide }

/-- An enclave whose single handler returns 0 and leaves memory alone; the sentinel is at
address 0 and the execution contexts are `0x7000` and `0x8000`. -/
def zeroEnclave : Enclave :=
  { table := fun _ => fun mem _ _ => (mem, 0), sentinelLoc := 0, handles := [0x7000, 0x8000],
    codes := sampleCodes }

/-- An enclave like `zeroEnclave` whose single handler returns `2^32`. -/
def wideEnclave : Enclave :=
  { table := fun _ => fun mem _ _ => (mem, 2 ^ 32), sentinelLoc := 0,
    handles := [0x7000, 0x8000], codes := sampleCodes }

/-- Enclave state before the sentinel is written. -/
def unwritten : EnclaveWorld :=
  { mem := fun _ => 0, executed := [], inUse := [], runnable := true }

/-- Enclave state once setup has written the sentinel at address 0. -/
def written : EnclaveWorld :=
  { mem := fun x => if x = 0 then INIT_MAGIC else 0, executed := [], inUse := [],
    runnable := true }

/-! ## Lemmas on the argument as written -/

theorem eval_holds : ∀ {l : Lvl} (e : CExpr l) (t : CType) (v : Int),
    e.eval = some (t, v) → t.holds v = true := by
  intro l e
  induction e with
  | operand t0 v0 =>
    intro t v h
    simp only [CExpr.eval] at h
    split at h
    · rename_i hh
      cases h
      exact hh
    · cases h
  | paren e ih => exact ih
  | prim e ih => exact ih
  | mult e ih => exact ih
  | mulop op l r _ _ =>
    intro t v h
    simp only [CExpr.eval] at h
    split at h
    · split at h
      · split at h
        · rename_i hh
          cases h
          exact hh
        · cases h
      · cases h
    · cases h
  | addop op l r _ _ =>
    intro t v h
    simp only [CExpr.eval] at h
    split at h
    · split at h
      · rename_i hh
        cases h
        exact hh
      · cases h
    · cases h

theorem holds_bounds (t : CType) (v : Int) (h : t.holds v = true) :
    -2 ^ 63 ≤ v ∧ v < 2 ^ 63 := by
  cases t <;> simp [CType.holds, CType.bits] at h <;> omega

theorem value_bounds {l : Lvl} (e : CExpr l) (o : Int) (h : e.value = some o) :
    -2 ^ 63 ≤ o ∧ o < 2 ^ 63 := by
  unfold CExpr.value at h
  cases he : e.eval with
  | none => simp [he] at h
  | some tv =>
    obtain ⟨t, v⟩ := tv
    simp [he] at h
    subst h
    exact holds_bounds t v (eval_holds e t v he)

theorem evalCast_of_isOperand (e : CExpr .additive) (o : Int) (hop : e.isOperand = true)
    (hv : e.value = some o) : e.evalCast = some (cast_uint64 o) := by
  match e, hop, hv with
  | .mult (.prim (.operand t v)), _, hv =>
    simp only [CExpr.value, CExpr.eval] at hv
    simp only [CExpr.evalCast]
    split at hv
    · rename_i hh
      simp at hv
      subst hv
      simp [hh]
    · simp at hv
  | .mult (.prim (.paren e)), _, hv =>
    simp only [CExpr.value, CExpr.eval] at hv
    simp only [CExpr.evalCast]
    cases he : e.eval with
    | none => simp [he] at hv
    | some tv =>
      simp [he] at hv
      simp [hv]

/-! ## Lemmas on the register machine -/

theorem asm_eq {σ : Type} (sgx_ecall : σ → RegFile → σ × RegFile) (op1 op2 : Reg)
    (rf : RegFile) (w : σ) (ord tcs a0 : Nat) :
    asmStatement sgx_ecall op1 op2 rf w ord tcs a0 =
      { regs := (sgx_ecall w (stagedRegs op1 op2 rf ord tcs a0)).2
        world := (sgx_ecall w (stagedRegs op1 op2 rf ord tcs a0)).1
        entered := [⟨stagedRegs op1 op2 rf ord tcs a0 .r10,
          stagedRegs op1 op2 rf ord tcs a0 .r11,
          stagedRegs op1 op2 rf ord tcs a0 .rdi⟩] } :=
  rfl

theorem macro_asm_eq {σ : Type} (sgx_ecall : σ → RegFile → σ × RegFile) (op1 op2 : Reg)
    (rf : RegFile) (w : σ) (e : CExpr .additive) (tcs a0 ord : Nat)
    (h : e.evalCast = some ord) :
    SGX_ENTER_1_ARG_asm sgx_ecall op1 op2 rf w e tcs a0 =
      some (asmStatement sgx_ecall op1 op2 rf w ord tcs a0) := by
  simp [SGX_ENTER_1_ARG_asm, h]

theorem macro_eq {σ : Type} (sgx_ecall : σ → RegFile → σ × RegFile) (op1 op2 : Reg)
    (rf : RegFile) (w : σ) (e : CExpr .additive) (tcs a0 ord : Nat)
    (h : e.evalCast = some ord) :
    SGX_ENTER_1_ARG sgx_ecall op1 op2 rf w e tcs a0 =
      some (int_ret ((sgx_ecall w (stagedRegs op1 op2 rf ord tcs a0)).2 .rax)) := by
  simp [SGX_ENTER_1_ARG, macro_asm_eq sgx_ecall op1 op2 rf w e tcs a0 ord h, asm_eq]

theorem macro_undefined {σ : Type} (sgx_ecall : σ → RegFile → σ × RegFile) (op1 op2 : Reg)
    (rf : RegFile) (w : σ) (e : CExpr .additive) (tcs a0 : Nat) (h : e.evalCast = none) :
    SGX_ENTER_1_ARG_asm sgx_ecall op1 op2 rf w e tcs a0 = none ∧
    SGX_ENTER_1_ARG sgx_ecall op1 op2 rf w e tcs a0 = none := by
  simp [SGX_ENTER_1_ARG, SGX_ENTER_1_ARG_asm, h]

theorem staged_r10 (op1 op2 : Reg) (rf : RegFile) (ord tcs a0 : Nat)
    (h : ValidAlloc op1 op2 ord tcs) :
    stagedRegs op1 op2 rf ord tcs a0 .r10 = ord := by
  obtain ⟨h1, h2, h3, h4, h5, h6, h7⟩ := h
  simp only [stagedRegs, run, exec, loadInputs, RegFile.set]
  by_cases h12 : op1 = op2
  · simp [h12, h6, h7 h12]
  · simp [h12, h3]

theorem staged_r11 (op1 op2 : Reg) (rf : RegFile) (ord tcs a0 : Nat)
    (h : ValidAlloc op1 op2 ord tcs) :
    stagedRegs op1 op2 rf ord tcs a0 .r11 = tcs % 2 ^ 64 := by
  obtain ⟨h1, h2, h3, h4, h5, h6, h7⟩ := h
  simp [stagedRegs, run, exec, loadInputs, RegFile.set, h4, h6]

theorem staged_rdi (op1 op2 : Reg) (rf : RegFile) (ord tcs a0 : Nat) :
    stagedRegs op1 op2 rf ord tcs a0 .rdi = a0 % 2 ^ 64 := by
  simp [stagedRegs, run, exec, loadInputs, RegFile.set]

/-- For an ordinal written as a single operand (or in parentheses) the three registers of
the call convention hold the ordinal modulo `2^64`, the handle and the argument when
control reaches `sgx_ecall`, whatever the allocation of `%1` and `%2` outside `r10`,
`r11` and `rdi`. -/
theorem entered_of_operand {σ : Type} (sgx_ecall : σ → RegFile → σ × RegFile)
    (op1 op2 : Reg) (rf : RegFile) (w : σ) (e : CExpr .additive) (o : Int) (tcs a0 : Nat)
    (hop : e.isOperand = true) (hv : e.value = some o)
    (h : ValidAlloc op1 op2 (cast_uint64 o) tcs) :
    (SGX_ENTER_1_ARG_asm sgx_ecall op1 op2 rf w e tcs a0).map Machine.entered =
      some [⟨cast_uint64 o, tcs % 2 ^ 64, a0 % 2 ^ 64⟩] := by
  rw [macro_asm_eq sgx_ecall op1 op2 rf w e tcs a0 _ (evalCast_of_isOperand e o hop hv), asm_eq,
    staged_r10 op1 op2 rf _ tcs a0 h, staged_r11 op1 op2 rf _ tcs a0 h, staged_rdi]
  rfl

/-- Why the clobber list matters: were `%2` allocated to `r10`, the first move would
overwrite the handle before it is read, and `r11` would receive the ordinal. -/
theorem clobbered_operand_loses_handle :
    (SGX_ENTER_1_ARG_asm noTransition .rcx .r10 (fun _ => 0) () (CExpr.lit .int 0) 0x7000
      5).map Machine.entered = some [⟨0, 0, 5⟩] := by
  decide

/-! ## Lemmas on the integer conversions -/

theorem int_ret_eq_toSigned32 (r : Nat) : int_ret r = toSigned32 (r % 2 ^ 32) := by
  unfold int_ret toSigned32
  rw [Nat.testBit_to_div_mod]
  norm_num
  by_cases hb : r / 2147483648 % 2 = 1
  · have : ¬ r % 4294967296 < 2147483648 := by omega
    simp only [hb, this, if_true, if_false]
    omega
  · have : r % 4294967296 < 2147483648 := by omega
    simp only [hb, this, if_true, if_false]
    omega

theorem int_ret_neg_iff (r : Nat) : int_ret r < 0 ↔ r.testBit 31 = true := by
  unfold int_ret
  by_cases hb : r.testBit 31 = true
  · simp only [hb, if_true, iff_true]
    have : r % 2 ^ 31 < 2 ^ 31 := Nat.mod_lt _ (by norm_num)
    norm_num at this ⊢
    omega
  · simp only [hb, if_false, iff_false]
    norm_num
    omega

theorem int_ret_eq_iff (r : Nat) (v : Int) (hlo : -2 ^ 31 ≤ v) (hhi : v < 2 ^ 31) :
    int_ret r = v ↔ r % 2 ^ 32 = (v % 2 ^ 32).toNat := by
  rw [int_ret_eq_toSigned32]
  unfold toSigned32
  norm_num at hlo hhi ⊢
  split_ifs with h <;> omega

theorem cast_uint64_mod32 (v : Int) : cast_uint64 v % 2 ^ 32 = (v % 2 ^ 32).toNat := by
  unfold cast_uint64
  norm_num
  omega

theorem int_ret_cast_uint64 (v : Int) (hlo : -2 ^ 31 ≤ v) (hhi : v < 2 ^ 31) :
    int_ret (cast_uint64 v) = v :=
  (int_ret_eq_iff (cast_uint64 v) v hlo hhi).mpr (cast_uint64_mod32 v)

theorem toSigned32_mod64 (r : Nat) :
    toSigned32 (r % 2 ^ 64 % 2 ^ 32) = toSigned32 (r % 2 ^ 32) := by
  have : r % 2 ^ 64 % 2 ^ 32 = r % 2 ^ 32 :=
    Nat.mod_mod_of_dvd r (Nat.pow_dvd_pow 2 (by decide))
  rw [this]

theorem leaves_status (r : Nat) (op1 op2 : Reg) (rf : RegFile) (e : CExpr .additive)
    (tcs a0 : Nat) :
    SGX_ENTER_1_ARG (leaves r) op1 op2 rf () e tcs a0 = e.evalCast.map (fun _ => int_ret r) := by
  cases h : e.evalCast with
  | none => simp [(macro_undefined (leaves r) op1 op2 rf () e tcs a0 h).2]
  | some ord =>
    rw [macro_eq (leaves r) op1 op2 rf () e tcs a0 ord h]
    simp [leaves, RegFile.set]

/-! ## Constants -/

/-- C7: the protocol constants are bit-exact. `ECALL_MAGIC` is 0; `MAX_ECALLS` is 1, hence at
least 1; `INIT_MAGIC` is `0xdeadfacedeadbeef`, which fits 64 unsigned bits and no fewer (bit
63 is set, so it exceeds every 32-bit value and every positive signed 64-bit value); the
`EEXIT` leaf is 4; and the `ENCLU` directive assembles to the bytes `0f 01 d7` both in its C
form and in its assembler form. -/
theorem constants_bit_exact :
    ECALL_MAGIC = 0 ∧ 1 ≤ MAX_ECALLS ∧ MAX_ECALLS = 1 ∧
    INIT_MAGIC = 0xdeadfacedeadbeef ∧ INIT_MAGIC < 2 ^ 64 ∧ 2 ^ 63 ≤ INIT_MAGIC ∧
    INIT_MAGIC.testBit 63 = true ∧ ¬ INIT_MAGIC < 2 ^ 32 ∧
    EEXIT = 4 ∧
    assembleByteDirective ENCLU = some [0x0f, 0x01, 0xd7] ∧
    assembleByteDirective ENCLU_ASSEMBLER = some [0x0f, 0x01, 0xd7] ∧
    assembleByteDirective ENCLU = assembleByteDirective ENCLU_ASSEMBLER := by
  decide


/-! ## Staging of the registers -/

/-- C4, the code at a failing input: for `SGX_ENTER_1_ARG(x / 2, tcs, a0)` with `int x = -1`
the ordinal is 0, and `r11` and `rdi` hold the handle and the argument, but `r10` holds
`2^63 - 1`: the cast written in front of the argument applies to `x` alone. With the same
ordinal written `(x / 2)` the three registers are as the convention wants them. -/
theorem compound_ordinal_not_in_r10 :
    (CExpr.binary .div .int (-1) .int 2).value = some 0 ∧
    ValidAlloc .rcx .rdx (2 ^ 63 - 1) 0x7000 ∧
    (SGX_ENTER_1_ARG_asm noTransition .rcx .rdx (fun _ => 0) ()
      (CExpr.binary .div .int (-1) .int 2) 0x7000 5).map Machine.entered =
        some [⟨2 ^ 63 - 1, 0x7000, 5⟩] ∧
    cast_uint64 0 ≠ 2 ^ 63 - 1 ∧
    (SGX_ENTER_1_ARG_asm noTransition .rcx .rdx (fun _ => 0) ()
      (CExpr.wrapped (CExpr.binary .div .int (-1) .int 2)) 0x7000 5).map Machine.entered =
        some [⟨0, 0x7000, 5⟩] := by
  decide

/-- C9, the code at a failing input: for `SGX_ENTER_1_ARG(vi % 15, tcs, a0)` with
`int vi = -1` the ordinal is -1, yet `r10` receives `(2^64 - 1) % 15 = 0` and not
`-1 mod 2^64 = 2^64 - 1`, so the comparison `r10 < MAX_ECALLS` accepts a negative ordinal.
With the same ordinal written as the single operand `-1` it is staged as `2^64 - 1`. -/
theorem negative_ordinal_staged_as_valid_index :
    (CExpr.binary .rem .int (-1) .int 15).value = some (-1) ∧
    (SGX_ENTER_1_ARG_asm noTransition .rcx .rdx (fun _ => 0) ()
      (CExpr.binary .rem .int (-1) .int 15) 0x7000 5).map
        (fun m => m.entered.map EnterArgs.r10) = some [0] ∧
    0 < MAX_ECALLS ∧
    cast_uint64 (-1) = 2 ^ 64 - 1 ∧
    (SGX_ENTER_1_ARG_asm noTransition .rcx .rdx (fun _ => 0) ()
      (CExpr.lit .int (-1)) 0x7000 5).map
        (fun m => m.entered.map EnterArgs.r10) = some [2 ^ 64 - 1] := by
  decide

/-! ## The status -/

/-- C10: the status is the low 32 bits of the return register read as a two's-complement
`int`. For every argument and whatever the callee leaves in `rax`, the status is
`toSigned32 (rax mod 2^32)` and is negative exactly when bit 31 of `rax` is set; raw
results that agree on their low 32 bits give the same status, and the raw results `2^32`
and `0` both give status 0. (The statement expression has a value exactly when its operand
`(uint64_t)ecall_num` has one.) -/
theorem status_low_32_bits_signed {σ : Type} (sgx_ecall : σ → RegFile → σ × RegFile)
    (op1 op2 : Reg) (rf : RegFile) (w : σ) (ecall_num : CExpr .additive) (tcs a0 : Nat) :
    (SGX_ENTER_1_ARG sgx_ecall op1 op2 rf w ecall_num tcs a0 =
      ecall_num.evalCast.map (fun ord =>
        toSigned32 ((sgx_ecall w (stagedRegs op1 op2 rf ord tcs a0)).2 .rax % 2 ^ 32))) ∧
    (∀ ord : Nat, ecall_num.evalCast = some ord →
      ∃ s : Int, SGX_ENTER_1_ARG sgx_ecall op1 op2 rf w ecall_num tcs a0 = some s ∧
        (s < 0 ↔ ((sgx_ecall w (stagedRegs op1 op2 rf ord tcs a0)).2 .rax).testBit 31 = true)) ∧
    (∀ r : Nat, SGX_ENTER_1_ARG (leaves r) op1 op2 rf () ecall_num tcs a0 =
      ecall_num.evalCast.map (fun _ => toSigned32 (r % 2 ^ 32))) ∧
    (∀ r1 r2 : Nat, r1 % 2 ^ 32 = r2 % 2 ^ 32 →
      SGX_ENTER_1_ARG (leaves r1) op1 op2 rf () ecall_num tcs a0 =
        SGX_ENTER_1_ARG (leaves r2) op1 op2 rf () ecall_num tcs a0) ∧
    SGX_ENTER_1_ARG (leaves (2 ^ 32)) op1 op2 rf () ecall_num tcs a0 =
      ecall_num.evalCast.map (fun _ => 0) ∧
    SGX_ENTER_1_ARG (leaves 0) op1 op2 rf () ecall_num tcs a0 =
      ecall_num.evalCast.map (fun _ => 0) := by
  have hl : ∀ r : Nat, SGX_ENTER_1_ARG (leaves r) op1 op2 rf () ecall_num tcs a0 =
      ecall_num.evalCast.map (fun _ => toSigned32 (r % 2 ^ 32)) := by
    intro r
    rw [leaves_status, int_ret_eq_toSigned32]
  refine ⟨?_, ?_, hl, ?_, ?_, ?_⟩
  · cases h : ecall_num.evalCast with
    | none => simp [(macro_undefined sgx_ecall op1 op2 rf w ecall_num tcs a0 h).2]
    | some ord =>
      rw [macro_eq sgx_ecall op1 op2 rf w ecall_num tcs a0 ord h, int_ret_eq_toSigned32]
      rfl
  · intro ord h
    exact ⟨_, macro_eq sgx_ecall op1 op2 rf w ecall_num tcs a0 ord h, int_ret_neg_iff _⟩
  · intro r1 r2 h12
    rw [hl r1, hl r2, h12]
  · rw [hl]
    rfl
  · rw [hl]
    rfl

/-- Counterexample to C5: the callee leaves `2^32` in the return register and the statement
expression gives 0, which is not that value. -/
theorem status_unchanged_counterexample :
    (SGX_ENTER_1_ARG_asm (leaves (2 ^ 32)) .rcx .rdx (fun _ => 0) () (CExpr.lit .int 0) 0
      0).map (fun m => m.regs .rax) = some (2 ^ 32) ∧
    (SGX_ENTER_1_ARG_asm (leaves (2 ^ 32)) .rcx .rdx (fun _ => 0) () (CExpr.lit .int 0) 0
      0).map (fun m => m.entered.length) = some 1 ∧
    SGX_ENTER_1_ARG (leaves (2 ^ 32)) .rcx .rdx (fun _ => 0) () (CExpr.lit .int 0) 0 0 =
      some 0 ∧
    SGX_ENTER_1_ARG (leaves (2 ^ 32)) .rcx .rdx (fun _ => 0) () (CExpr.lit .int 0) 0 0 ≠
      (SGX_ENTER_1_ARG_asm (leaves (2 ^ 32)) .rcx .rdx (fun _ => 0) () (CExpr.lit .int 0) 0
        0).map (fun m => Int.ofNat (m.regs .rax)) := by
  decide

/-- C5, amended: every evaluation of `SGX_ENTER_1_ARG` enters `sgx_ecall` exactly once (so at
most once: no retry, no recovery), the world it leaves is the one that single invocation
left, and the status is the low 32 bits of the value that invocation left in the return
register, read as a signed `int`: a value that is a 32-bit `int` `v` there (sign-extended
or with any upper half), be it a handler result, an error status or a fatal status, is
returned as `v` itself. -/
theorem single_enter_status_passthrough {σ : Type} (sgx_ecall : σ → RegFile → σ × RegFile)
    (op1 op2 : Reg) (rf : RegFile) (w : σ) (ecall_num : CExpr .additive) (tcs a0 : Nat) :
    (SGX_ENTER_1_ARG_asm sgx_ecall op1 op2 rf w ecall_num tcs a0).map
        (fun m => m.entered.length) = ecall_num.evalCast.map (fun _ => 1) ∧
    (SGX_ENTER_1_ARG_asm sgx_ecall op1 op2 rf w ecall_num tcs a0).map Machine.world =
      ecall_num.evalCast.map (fun ord =>
        (sgx_ecall w (stagedRegs op1 op2 rf ord tcs a0)).1) ∧
    SGX_ENTER_1_ARG sgx_ecall op1 op2 rf w ecall_num tcs a0 =
      ecall_num.evalCast.map (fun ord =>
        toSigned32 ((sgx_ecall w (stagedRegs op1 op2 rf ord tcs a0)).2 .rax % 2 ^ 32)) ∧
    (∀ (ord : Nat) (v : Int), ecall_num.evalCast = some ord → -2 ^ 31 ≤ v → v < 2 ^ 31 →
      (sgx_ecall w (stagedRegs op1 op2 rf ord tcs a0)).2 .rax % 2 ^ 32 =
        cast_uint64 v % 2 ^ 32 →
      SGX_ENTER_1_ARG sgx_ecall op1 op2 rf w ecall_num tcs a0 = some v) := by
  refine ⟨?_, ?_, ?_, ?_⟩
  · cases h : ecall_num.evalCast with
    | none => simp [(macro_undefined sgx_ecall op1 op2 rf w ecall_num tcs a0 h).1]
    | some ord =>
      rw [macro_asm_eq sgx_ecall op1 op2 rf w ecall_num tcs a0 ord h, asm_eq]
      rfl
  · cases h : ecall_num.evalCast with
    | none => simp [(macro_undefined sgx_ecall op1 op2 rf w ecall_num tcs a0 h).1]
    | some ord =>
      rw [macro_asm_eq sgx_ecall op1 op2 rf w ecall_num tcs a0 ord h, asm_eq]
      rfl
  · cases h : ecall_num.evalCast with
    | none => simp [(macro_undefined sgx_ecall op1 op2 rf w ecall_num tcs a0 h).2]
    | some ord =>
      rw [macro_eq sgx_ecall op1 op2 rf w ecall_num tcs a0 ord h, int_ret_eq_toSigned32]
      rfl
  · intro ord v h hlo hhi hv
    rw [macro_eq sgx_ecall op1 op2 rf w ecall_num tcs a0 ord h]
    rw [cast_uint64_mod32] at hv
    exact congrArg some ((int_ret_eq_iff _ v hlo hhi).mpr hv)

/-- Witness of C5, amended: a callee that leaves the sign-extended `int` -22 gives status
-22. -/
theorem single_enter_status_passthrough_witness :
    SGX_ENTER_1_ARG (leaves (cast_uint64 (-22))) .rcx .rdx (fun _ => 0) () (CExpr.lit .int 0)
      0 0 = some (-22) :=
  (single_enter_status_passthrough (leaves (cast_uint64 (-22))) .rcx .rdx (fun _ => 0) ()
    (CExpr.lit .int 0) 0 0).2.2.2 0 (-22) (by decide) (by decide) (by decide) (by decide)

/-! ## Lemmas on the receiving side -/

theorem dispatch_guard (e : Enclave) (w : EnclaveWorld) (ordinal tcs a0 : Nat)
    (hs : w.mem e.sentinelLoc ≠ INIT_MAGIC) :
    dispatch e w ordinal tcs a0 = (w, cast_uint64 e.codes.notInit) := by
  simp [dispatch, check, hs]

theorem dispatch_out_of_range (e : Enclave) (w : EnclaveWorld) (ordinal tcs a0 : Nat)
    (hs : w.mem e.sentinelLoc = INIT_MAGIC) (ho : MAX_ECALLS ≤ ordinal) :
    dispatch e w ordinal tcs a0 = (w, cast_uint64 e.codes.outOfRange) := by
  have hn : ¬ ordinal < MAX_ECALLS := Nat.not_lt.mpr ho
  simp [dispatch, check, hs, resolve, hn]

theorem dispatch_valid (e : Enclave) (w : EnclaveWorld) (ordinal tcs a0 : Nat)
    (hs : w.mem e.sentinelLoc = INIT_MAGIC) (ho : ordinal < MAX_ECALLS) :
    dispatch e w ordinal tcs a0 =
      ({ w with mem := (e.table ⟨ordinal, ho⟩ w.mem tcs a0).1,
                executed := w.executed ++ [ordinal] },
        (e.table ⟨ordinal, ho⟩ w.mem tcs a0).2 % 2 ^ 64) := by
  simp [dispatch, check, hs, resolve, ho]

theorem enclave_sgx_ecall_enter (e : Enclave) (w : EnclaveWorld) (rf : RegFile)
    (h : enterable e w (rf .r11) = true) :
    enclave_sgx_ecall e w rf =
      ((dispatch e w (rf .r10) (rf .r11) (rf .rdi)).1,
        rf.set .rax (dispatch e w (rf .r10) (rf .r11) (rf .rdi)).2) := by
  unfold enclave_sgx_ecall
  rw [if_pos h]

theorem enclave_sgx_ecall_fault (e : Enclave) (w : EnclaveWorld) (rf : RegFile)
    (h : enterable e w (rf .r11) = false) :
    enclave_sgx_ecall e w rf = (w, rf.set .rax (cast_uint64 e.codes.fatal)) := by
  unfold enclave_sgx_ecall
  rw [if_neg (by simp [h])]

theorem enclave_call_eq (e : Enclave) (op1 op2 : Reg) (rf : RegFile) (w : EnclaveWorld)
    (ecall_num : CExpr .additive) (tcs a0 ord : Nat) (hord : ecall_num.evalCast = some ord)
    (ha : ValidAlloc op1 op2 ord tcs) (hh : enterable e w (tcs % 2 ^ 64) = true) :
    SGX_ENTER_1_ARG (enclave_sgx_ecall e) op1 op2 rf w ecall_num tcs a0 =
      some (int_ret (dispatch e w ord (tcs % 2 ^ 64) (a0 % 2 ^ 64)).2) ∧
    (SGX_ENTER_1_ARG_asm (enclave_sgx_ecall e) op1 op2 rf w ecall_num tcs a0).map
      Machine.world = some (dispatch e w ord (tcs % 2 ^ 64) (a0 % 2 ^ 64)).1 := by
  have hh2 : enterable e w (stagedRegs op1 op2 rf ord tcs a0 .r11) = true := by
    rw [staged_r11 op1 op2 rf ord tcs a0 ha]
    exact hh
  constructor
  · rw [macro_eq _ op1 op2 rf w ecall_num tcs a0 ord hord, enclave_sgx_ecall_enter e w _ hh2,
      staged_r10 op1 op2 rf ord tcs a0 ha, staged_r11 op1 op2 rf ord tcs a0 ha, staged_rdi]
    simp only [RegFile.set, if_true]
  · rw [macro_asm_eq _ op1 op2 rf w ecall_num tcs a0 ord hord, asm_eq,
      enclave_sgx_ecall_enter e w _ hh2, staged_r10 op1 op2 rf ord tcs a0 ha,
      staged_r11 op1 op2 rf ord tcs a0 ha, staged_rdi]
    rfl

theorem enclave_fault_eq (e : Enclave) (op1 op2 : Reg) (rf : RegFile) (w : EnclaveWorld)
    (ecall_num : CExpr .additive) (tcs a0 ord : Nat) (hord : ecall_num.evalCast = some ord)
    (ha : ValidAlloc op1 op2 ord tcs) (hh : enterable e w (tcs % 2 ^ 64) = false) :
    SGX_ENTER_1_ARG (enclave_sgx_ecall e) op1 op2 rf w ecall_num tcs a0 =
      some e.codes.fatal ∧
    (SGX_ENTER_1_ARG_asm (enclave_sgx_ecall e) op1 op2 rf w ecall_num tcs a0).map
      Machine.world = some w := by
  have hh2 : enterable e w (stagedRegs op1 op2 rf ord tcs a0 .r11) = false := by
    rw [staged_r11 op1 op2 rf ord tcs a0 ha]
    exact hh
  constructor
  · rw [macro_eq _ op1 op2 rf w ecall_num tcs a0 ord hord, enclave_sgx_ecall_fault e w _ hh2]
    simp only [RegFile.set, if_true]
    rw [int_ret_cast_uint64 e.codes.fatal e.codes.fits.2.2.1 e.codes.fits.2.2.2]
  · rw [macro_asm_eq _ op1 op2 rf w ecall_num tcs a0 ord hord, asm_eq,
      enclave_sgx_ecall_fault e w _ hh2]
    rfl

/-! ## Lemmas on two processors -/

/-- Counterexample to C6: with the status codes -1, -2, -3, a handler that leaves
`2^32 - 1` in the return register, a value that is none of the codes as the receiving side
leaves them, makes the call return the OutOfRange status. Whatever the status codes are,
the handler result made of the low 32 bits of the OutOfRange code gives the OutOfRange
status without being that code. -/
theorem result_collides_with_error_counterexample :
    (SGX_ENTER_1_ARG (leaves (2 ^ 32 - 1)) .rcx .rdx (fun _ => 0) () (CExpr.lit .int 0) 0x7000
        0 = some sampleCodes.outOfRange ∧
      2 ^ 32 - 1 ≠ cast_uint64 sampleCodes.outOfRange ∧
      2 ^ 32 - 1 ≠ cast_uint64 sampleCodes.notInit ∧
      2 ^ 32 - 1 ≠ cast_uint64 sampleCodes.fatal) ∧
    (∀ c : StatusCodes,
      SGX_ENTER_1_ARG (leaves (c.outOfRange % 2 ^ 32).toNat) .rcx .rdx (fun _ => 0) ()
        (CExpr.lit .int 0) 0x7000 0 = some c.outOfRange ∧
      (c.outOfRange % 2 ^ 32).toNat ≠ cast_uint64 c.outOfRange) := by
  refine ⟨by decide, ?_⟩
  intro c
  have h1 := c.fits.1
  have h2 := c.negative.1
  constructor
  · rw [leaves_status]
    have hd : (CExpr.lit .int 0).evalCast = some 0 := by decide
    rw [hd]
    refine congrArg some ((int_ret_eq_iff _ _ h1.1 h1.2).mpr ?_)
    norm_num
    omega
  · unfold cast_uint64
    norm_num at h1 ⊢
    omega

/-- C6, amended: `SGX_ENTER_1_ARG` does not keep result space and error space apart, it
returns the `int` found in `eax` whatever its origin. Its status is the OutOfRange (or
NotInitialized) status exactly when the low 32 bits of the value left in the return
register are the two's-complement pattern of that code, so a handler never yields those
statuses exactly when the low 32 bits of its results avoid the two patterns. The
OutOfRange, NotInitialized and Fatal statuses are pairwise distinct: each code left in the
return register comes back as itself, and no two of them as the same status. -/
theorem status_equals_code_iff {σ : Type} (sgx_ecall : σ → RegFile → σ × RegFile)
    (op1 op2 : Reg) (rf : RegFile) (w : σ) (ecall_num : CExpr .additive) (tcs a0 : Nat)
    (c : StatusCodes) (ord : Nat) (hord : ecall_num.evalCast = some ord) :
    (SGX_ENTER_1_ARG sgx_ecall op1 op2 rf w ecall_num tcs a0 = some c.outOfRange ↔
      (sgx_ecall w (stagedRegs op1 op2 rf ord tcs a0)).2 .rax % 2 ^ 32 =
        (c.outOfRange % 2 ^ 32).toNat) ∧
    (SGX_ENTER_1_ARG sgx_ecall op1 op2 rf w ecall_num tcs a0 = some c.notInit ↔
      (sgx_ecall w (stagedRegs op1 op2 rf ord tcs a0)).2 .rax % 2 ^ 32 =
        (c.notInit % 2 ^ 32).toNat) ∧
    (∀ r : Nat,
      (SGX_ENTER_1_ARG (leaves r) op1 op2 rf () ecall_num tcs a0 = some c.outOfRange ↔
        r % 2 ^ 32 = (c.outOfRange % 2 ^ 32).toNat) ∧
      (SGX_ENTER_1_ARG (leaves r) op1 op2 rf () ecall_num tcs a0 = some c.notInit ↔
        r % 2 ^ 32 = (c.notInit % 2 ^ 32).toNat)) ∧
    SGX_ENTER_1_ARG (leaves (cast_uint64 c.outOfRange)) op1 op2 rf () ecall_num tcs a0 =
      some c.outOfRange ∧
    SGX_ENTER_1_ARG (leaves (cast_uint64 c.notInit)) op1 op2 rf () ecall_num tcs a0 =
      some c.notInit ∧
    SGX_ENTER_1_ARG (leaves (cast_uint64 c.fatal)) op1 op2 rf () ecall_num tcs a0 =
      some c.fatal ∧
    SGX_ENTER_1_ARG (leaves (cast_uint64 c.outOfRange)) op1 op2 rf () ecall_num tcs a0 ≠
      SGX_ENTER_1_ARG (leaves (cast_uint64 c.notInit)) op1 op2 rf () ecall_num tcs a0 ∧
    SGX_ENTER_1_ARG (leaves (cast_uint64 c.outOfRange)) op1 op2 rf () ecall_num tcs a0 ≠
      SGX_ENTER_1_ARG (leaves (cast_uint64 c.fatal)) op1 op2 rf () ecall_num tcs a0 ∧
    SGX_ENTER_1_ARG (leaves (cast_uint64 c.notInit)) op1 op2 rf () ecall_num tcs a0 ≠
      SGX_ENTER_1_ARG (leaves (cast_uint64 c.fatal)) op1 op2 rf () ecall_num tcs a0 := by
  have hg : ∀ {τ : Type} (f : τ → RegFile → τ × RegFile) (x : τ) (v : Int),
      -2 ^ 31 ≤ v ∧ v < 2 ^ 31 →
      (SGX_ENTER_1_ARG f op1 op2 rf x ecall_num tcs a0 = some v ↔
        (f x (stagedRegs op1 op2 rf ord tcs a0)).2 .rax % 2 ^ 32 = (v % 2 ^ 32).toNat) := by
    intro τ f x v hv
    rw [macro_eq f op1 op2 rf x ecall_num tcs a0 ord hord]
    constructor
    · intro h
      exact (int_ret_eq_iff _ v hv.1 hv.2).mp (Option.some.inj h)
    · intro h
      exact congrArg some ((int_ret_eq_iff _ v hv.1 hv.2).mpr h)
  have hl : ∀ (r : Nat) (v : Int), -2 ^ 31 ≤ v ∧ v < 2 ^ 31 →
      (SGX_ENTER_1_ARG (leaves r) op1 op2 rf () ecall_num tcs a0 = some v ↔
        r % 2 ^ 32 = (v % 2 ^ 32).toNat) := by
    intro r v hv
    have h := hg (leaves r) () v hv
    simpa [leaves, RegFile.set] using h
  have ho := (hl _ c.outOfRange c.fits.1).mpr (cast_uint64_mod32 c.outOfRange)
  have hn := (hl _ c.notInit c.fits.2.1).mpr (cast_uint64_mod32 c.notInit)
  have hf := (hl _ c.fatal c.fits.2.2).mpr (cast_uint64_mod32 c.fatal)
  refine ⟨hg sgx_ecall w _ c.fits.1, hg sgx_ecall w _ c.fits.2.1,
    fun r => ⟨hl r _ c.fits.1, hl r _ c.fits.2.1⟩, ho, hn, hf, ?_, ?_, ?_⟩
  · rw [ho, hn]
    exact fun h => c.distinct.1 (Option.some.inj h)
  · rw [ho, hf]
    exact fun h => c.distinct.2.1 (Option.some.inj h)
  · rw [hn, hf]
    exact fun h => c.distinct.2.2 (Option.some.inj h)

/-- Witness of C6, amended: with the codes -1, -2, -3 and the ordinal written `0`, a callee
that leaves 7 in the return register. -/
theorem status_equals_code_iff_witness :
    (SGX_ENTER_1_ARG (leaves 7) .rcx .rdx (fun _ => 0) () (CExpr.lit .int 0) 0x7000 0 =
        some sampleCodes.outOfRange ↔
      (leaves 7 () (stagedRegs .rcx .rdx (fun _ => 0) 0 0x7000 0)).2 .rax % 2 ^ 32 =
        (sampleCodes.outOfRange % 2 ^ 32).toNat) ∧
    SGX_ENTER_1_ARG (leaves (cast_uint64 sampleCodes.outOfRange)) .rcx .rdx (fun _ => 0) ()
      (CExpr.lit .int 0) 0x7000 0 = some sampleCodes.outOfRange ∧
    SGX_ENTER_1_ARG (leaves (cast_uint64 sampleCodes.outOfRange)) .rcx .rdx (fun _ => 0) ()
        (CExpr.lit .int 0) 0x7000 0 ≠
      SGX_ENTER_1_ARG (leaves (cast_uint64 sampleCodes.notInit)) .rcx .rdx (fun _ => 0) ()
        (CExpr.lit .int 0) 0x7000 0 :=
  ⟨(status_equals_code_iff (leaves 7) .rcx .rdx (fun _ => 0) () (CExpr.lit .int 0) 0x7000 0
      sampleCodes 0 (by decide)).1,
    (status_equals_code_iff (leaves 7) .rcx .rdx (fun _ => 0) () (CExpr.lit .int 0) 0x7000 0
      sampleCodes 0 (by decide)).2.2.2.1,
    (status_equals_code_iff (leaves 7) .rcx .rdx (fun _ => 0) () (CExpr.lit .int 0) 0x7000 0
      sampleCodes 0 (by decide)).2.2.2.2.2.2.1⟩

/-! ## Dispatch -/

/-- Counterexample to C1: with a callee that makes no transition, the ordinals 1 and -1,
both out of range and written as single operands, still reach `call sgx_ecall`: the record
of transfers holds one entry, with the ordinal in `r10`. -/
theorem out_of_range_enter_counterexample :
    (MAX_ECALLS : Int) ≤ 1 ∧ (-1 : Int) < 0 ∧
    (SGX_ENTER_1_ARG_asm noTransition .rcx .rdx (fun _ => 0) () (CExpr.lit .int 1) 0x7000
      0).map Machine.entered = some [⟨1, 0x7000, 0⟩] ∧
    (SGX_ENTER_1_ARG_asm noTransition .rcx .rdx (fun _ => 0) () (CExpr.lit .int (-1)) 0x7000
      0).map Machine.entered = some [⟨2 ^ 64 - 1, 0x7000, 0⟩] := by
  decide

/-- C1, amended: for every ordinal `o` of type `int` or `long` with `o < 0` or
`o ≥ MAX_ECALLS`, written as a single operand or in parentheses, every context handle and
every argument, `SGX_ENTER_1_ARG` makes no range check of its own: it enters `sgx_ecall`
exactly once, with the ordinal staged in `r10` as `o mod 2^64`, a value of at least
`MAX_ECALLS`, and it returns the OutOfRange status exactly when that single invocation
leaves the OutOfRange code in the low 32 bits of the return register. -/
theorem out_of_range_enters_once {σ : Type} (sgx_ecall : σ → RegFile → σ × RegFile)
    (c : StatusCodes) (op1 op2 : Reg) (rf : RegFile) (w : σ)
    (ecall_num : CExpr .additive) (o : Int) (tcs a0 : Nat)
    (hop : ecall_num.isOperand = true) (hv : ecall_num.value = some o)
    (hr : o < 0 ∨ (MAX_ECALLS : Int) ≤ o)
    (ha : ValidAlloc op1 op2 (cast_uint64 o) tcs) :
    (SGX_ENTER_1_ARG_asm sgx_ecall op1 op2 rf w ecall_num tcs a0).map Machine.entered =
      some [⟨cast_uint64 o, tcs % 2 ^ 64, a0 % 2 ^ 64⟩] ∧
    MAX_ECALLS ≤ cast_uint64 o ∧
    (SGX_ENTER_1_ARG_asm sgx_ecall op1 op2 rf w ecall_num tcs a0).map Machine.world =
      some (sgx_ecall w (stagedRegs op1 op2 rf (cast_uint64 o) tcs a0)).1 ∧
    (SGX_ENTER_1_ARG sgx_ecall op1 op2 rf w ecall_num tcs a0 = some c.outOfRange ↔
      (sgx_ecall w (stagedRegs op1 op2 rf (cast_uint64 o) tcs a0)).2 .rax % 2 ^ 32 =
        (c.outOfRange % 2 ^ 32).toNat) := by
  have hb := value_bounds ecall_num o hv
  have hge : MAX_ECALLS ≤ cast_uint64 o := by
    unfold cast_uint64
    unfold MAX_ECALLS at hr ⊢
    omega
  have hord := evalCast_of_isOperand ecall_num o hop hv
  refine ⟨entered_of_operand sgx_ecall op1 op2 rf w ecall_num o tcs a0 hop hv ha, hge, ?_, ?_⟩
  · rw [macro_asm_eq sgx_ecall op1 op2 rf w ecall_num tcs a0 _ hord, asm_eq]
    rfl
  · rw [macro_eq sgx_ecall op1 op2 rf w ecall_num tcs a0 _ hord]
    constructor
    · intro h
      exact (int_ret_eq_iff _ _ c.fits.1.1 c.fits.1.2).mp (Option.some.inj h)
    · intro h
      exact congrArg some ((int_ret_eq_iff _ _ c.fits.1.1 c.fits.1.2).mpr h)

/-- Witness of C1, amended: the ordinal 1 with a callee that leaves the OutOfRange code of
the examples, sign-extended, in the return register. -/
theorem out_of_range_enters_once_witness :
    (SGX_ENTER_1_ARG_asm (leaves (cast_uint64 sampleCodes.outOfRange)) .rcx .rdx (fun _ => 0) ()
      (CExpr.lit .int 1) 0x7000 0).map Machine.entered =
        some [⟨cast_uint64 1, 0x7000 % 2 ^ 64, 0 % 2 ^ 64⟩] ∧
    MAX_ECALLS ≤ cast_uint64 1 ∧
    SGX_ENTER_1_ARG (leaves (cast_uint64 sampleCodes.outOfRange)) .rcx .rdx (fun _ => 0) ()
      (CExpr.lit .int 1) 0x7000 0 = some sampleCodes.outOfRange :=
  ⟨(out_of_range_enters_once (leaves (cast_uint64 sampleCodes.outOfRange)) sampleCodes .rcx
      .rdx (fun _ => 0) () (CExpr.lit .int 1) 1 0x7000 0 (by decide) (by decide) (by decide)
      (by decide)).1,
    (out_of_range_enters_once (leaves (cast_uint64 sampleCodes.outOfRange)) sampleCodes .rcx
      .rdx (fun _ => 0) () (CExpr.lit .int 1) 1 0x7000 0 (by decide) (by decide) (by decide)
      (by decide)).2.1,
    (out_of_range_enters_once (leaves (cast_uint64 sampleCodes.outOfRange)) sampleCodes .rcx
      .rdx (fun _ => 0) () (CExpr.lit .int 1) 1 0x7000 0 (by decide) (by decide) (by decide)
      (by decide)).2.2.2.mpr (by decide)⟩

/-- Behind the entry point: an out-of-range ordinal written as a single operand, on a valid
handle and with the sentinel in place, runs no handler, leaves the enclave as it is and
comes back as the OutOfRange status. -/
theorem out_of_range_refused_by_dispatcher (e : Enclave) (op1 op2 : Reg) (rf : RegFile)
    (ew : EnclaveWorld) (ecall_num : CExpr .additive) (o : Int) (tcs a0 : Nat)
    (hop : ecall_num.isOperand = true) (hv : ecall_num.value = some o)
    (hr : o < 0 ∨ (MAX_ECALLS : Int) ≤ o)
    (ha : ValidAlloc op1 op2 (cast_uint64 o) tcs)
    (hh : enterable e ew (tcs % 2 ^ 64) = true)
    (hs : ew.mem e.sentinelLoc = INIT_MAGIC) :
    (SGX_ENTER_1_ARG_asm (enclave_sgx_ecall e) op1 op2 rf ew ecall_num tcs a0).map
      Machine.world = some ew ∧
    SGX_ENTER_1_ARG (enclave_sgx_ecall e) op1 op2 rf ew ecall_num tcs a0 =
      some e.codes.outOfRange := by
  have hb := value_bounds ecall_num o hv
  have hge : MAX_ECALLS ≤ cast_uint64 o := by
    unfold cast_uint64
    unfold MAX_ECALLS at hr ⊢
    omega
  have hord := evalCast_of_isOperand ecall_num o hop hv
  have hc := enclave_call_eq e op1 op2 rf ew ecall_num tcs a0 _ hord ha hh
  rw [dispatch_out_of_range e ew _ _ _ hs hge] at hc
  refine ⟨hc.2, ?_⟩
  rw [hc.1]
  exact congrArg some (int_ret_cast_uint64 _ e.codes.fits.1.1 e.codes.fits.1.2)

/-- Counterexample to C2: for the valid ordinal 0 and a valid handle, (a) before the
sentinel is written the call reaches no handler and its status is NotInitialized, not the 0
the handler would return; (b) with the sentinel written and a handler that returns `2^32`,
the handler runs once and the status is 0, not `2^32`. -/
theorem valid_ordinal_status_counterexample :
    (SGX_ENTER_1_ARG (enclave_sgx_ecall zeroEnclave) .rcx .rdx (fun _ => 0) unwritten
        (CExpr.lit .int 0) 0x7000 0 = some zeroEnclave.codes.notInit ∧
      (SGX_ENTER_1_ARG_asm (enclave_sgx_ecall zeroEnclave) .rcx .rdx (fun _ => 0) unwritten
        (CExpr.lit .int 0) 0x7000 0).map (fun m => m.world.executed) = some [] ∧
      (zeroEnclave.table ⟨0, by decide⟩ unwritten.mem 0x7000 0).2 = 0 ∧
      zeroEnclave.codes.notInit ≠ 0) ∧
    (SGX_ENTER_1_ARG (enclave_sgx_ecall wideEnclave) .rcx .rdx (fun _ => 0) written
        (CExpr.lit .int 0) 0x7000 0 = some 0 ∧
      (SGX_ENTER_1_ARG_asm (enclave_sgx_ecall wideEnclave) .rcx .rdx (fun _ => 0) written
        (CExpr.lit .int 0) 0x7000 0).map (fun m => m.world.executed) = some [0] ∧
      (wideEnclave.table ⟨0, by decide⟩ written.mem 0x7000 0).2 = 2 ^ 32) := by
  decide

/-- C2, amended: for every ordinal `o` with `0 ≤ o < MAX_ECALLS` (only 0), written as a
single operand or in parentheses, every valid handle and every argument, once the sentinel
holds `INIT_MAGIC` the call enters once and reaches exactly one handler, the one the call
table has at `o`; the status is that handler's result narrowed to `int` (its low 32 bits
read as signed), so it is the result itself whenever the result is a sign-extended 32-bit
`int`, and it is determined by `o`, the handle, the argument, the handler and the enclave
memory the handler runs on, not by the registers picked or their prior content. In
particular a handler returning 0 yields status 0. -/
theorem valid_ordinal_dispatch (e : Enclave) (op1 op2 : Reg) (rf : RegFile) (w : EnclaveWorld)
    (ecall_num : CExpr .additive) (o : Int) (tcs a0 : Nat)
    (hop : ecall_num.isOperand = true) (hv : ecall_num.value = some o)
    (h0 : 0 ≤ o) (h1 : o < (MAX_ECALLS : Int))
    (ha : ValidAlloc op1 op2 (cast_uint64 o) tcs)
    (hh : enterable e w (tcs % 2 ^ 64) = true)
    (hs : w.mem e.sentinelLoc = INIT_MAGIC) :
    ∃ h : Handler, resolve e o.toNat = some h ∧
      (SGX_ENTER_1_ARG_asm (enclave_sgx_ecall e) op1 op2 rf w ecall_num tcs a0).map
        (fun m => m.entered.length) = some 1 ∧
      (SGX_ENTER_1_ARG_asm (enclave_sgx_ecall e) op1 op2 rf w ecall_num tcs a0).map
        (fun m => m.world.executed) = some (w.executed ++ [o.toNat]) ∧
      (SGX_ENTER_1_ARG_asm (enclave_sgx_ecall e) op1 op2 rf w ecall_num tcs a0).map
        (fun m => m.world.mem) = some (h w.mem (tcs % 2 ^ 64) (a0 % 2 ^ 64)).1 ∧
      SGX_ENTER_1_ARG (enclave_sgx_ecall e) op1 op2 rf w ecall_num tcs a0 =
        some (toSigned32 ((h w.mem (tcs % 2 ^ 64) (a0 % 2 ^ 64)).2 % 2 ^ 32)) ∧
      (∀ v : Int, -2 ^ 31 ≤ v → v < 2 ^ 31 →
        (h w.mem (tcs % 2 ^ 64) (a0 % 2 ^ 64)).2 = cast_uint64 v →
        SGX_ENTER_1_ARG (enclave_sgx_ecall e) op1 op2 rf w ecall_num tcs a0 = some v) ∧
      ((h w.mem (tcs % 2 ^ 64) (a0 % 2 ^ 64)).2 = 0 →
        SGX_ENTER_1_ARG (enclave_sgx_ecall e) op1 op2 rf w ecall_num tcs a0 = some 0) := by
  have hcu : cast_uint64 o = o.toNat := by
    unfold cast_uint64
    unfold MAX_ECALLS at h1
    omega
  have hlt : o.toNat < MAX_ECALLS := by
    unfold MAX_ECALLS at h1 ⊢
    omega
  have hord := evalCast_of_isOperand ecall_num o hop hv
  have hc := enclave_call_eq e op1 op2 rf w ecall_num tcs a0 _ hord ha hh
  rw [hcu, dispatch_valid e w _ _ _ hs hlt] at hc
  have hst : SGX_ENTER_1_ARG (enclave_sgx_ecall e) op1 op2 rf w ecall_num tcs a0 =
      some (toSigned32
        ((e.table ⟨o.toNat, hlt⟩ w.mem (tcs % 2 ^ 64) (a0 % 2 ^ 64)).2 % 2 ^ 32)) := by
    rw [hc.1, int_ret_eq_toSigned32, toSigned32_mod64]
  have hen := entered_of_operand (enclave_sgx_ecall e) op1 op2 rf w ecall_num o tcs a0 hop hv ha
  refine ⟨e.table ⟨o.toNat, hlt⟩, ?_, ?_, ?_, ?_, hst, ?_, ?_⟩
  · simp [resolve, hlt]
  · cases hm : SGX_ENTER_1_ARG_asm (enclave_sgx_ecall e) op1 op2 rf w ecall_num tcs a0 with
    | none => simp [hm] at hen
    | some m =>
      simp [hm] at hen
      simp [hen]
  · cases hm : SGX_ENTER_1_ARG_asm (enclave_sgx_ecall e) op1 op2 rf w ecall_num tcs a0 with
    | none => simp [hm] at hen
    | some m =>
      have h2 := hc.2
      simp [hm] at h2
      simp [h2]
  · cases hm : SGX_ENTER_1_ARG_asm (enclave_sgx_ecall e) op1 op2 rf w ecall_num tcs a0 with
    | none => simp [hm] at hen
    | some m =>
      have h2 := hc.2
      simp [hm] at h2
      simp [h2]
  · intro v hvlo hvhi hres
    rw [hst, hres, ← int_ret_eq_toSigned32]
    exact congrArg some (int_ret_cast_uint64 v hvlo hvhi)
  · intro hz
    rw [hst, hz]
    rfl

/-- Witness of C2, amended: `call(0, tcs, 0)` with the sentinel written and the single
handler returning 0. -/
theorem valid_ordinal_dispatch_witness :
    ∃ h : Handler, resolve zeroEnclave (0 : Int).toNat = some h ∧
      (SGX_ENTER_1_ARG_asm (enclave_sgx_ecall zeroEnclave) .rcx .rdx (fun _ => 0) written
        (CExpr.lit .int 0) 0x7000 0).map (fun m => m.world.executed) =
          some (written.executed ++ [(0 : Int).toNat]) ∧
      ((h written.mem (0x7000 % 2 ^ 64) (0 % 2 ^ 64)).2 = 0 →
        SGX_ENTER_1_ARG (enclave_sgx_ecall zeroEnclave) .rcx .rdx (fun _ => 0) written
          (CExpr.lit .int 0) 0x7000 0 = some 0) :=
  match valid_ordinal_dispatch zeroEnclave .rcx .rdx (fun _ => 0) written (CExpr.lit .int 0) 0
    0x7000 0 (by decide) (by decide) (by decide) (by decide) (by decide) (by decide)
    (by decide) with
  | ⟨h, hres, _, hex, _, _, _, hz⟩ => ⟨h, hres, hex, hz⟩

/-- Counterexample to C3: before the sentinel is written, a call on a malformed handle (0 is
no execution context of the enclave) or on a handle in use by another logical processor
fails at Enter: it returns the Fatal status, which is not the NotInitialized status. -/
theorem not_initialized_every_handle_counterexample :
    SGX_ENTER_1_ARG (enclave_sgx_ecall zeroEnclave) .rcx .rdx (fun _ => 0) unwritten
      (CExpr.lit .int 0) 0 0 = some zeroEnclave.codes.fatal ∧
    SGX_ENTER_1_ARG (enclave_sgx_ecall zeroEnclave) .rcx .rdx (fun _ => 0)
      { unwritten with inUse := [0x7000] } (CExpr.lit .int 0) 0x7000 0 =
        some zeroEnclave.codes.fatal ∧
    zeroEnclave.codes.fatal ≠ zeroEnclave.codes.notInit ∧
    unwritten.mem zeroEnclave.sentinelLoc ≠ INIT_MAGIC := by
  decide

/-- C3, amended: if the value at the sentinel location differs from `INIT_MAGIC`, then for
every ordinal, valid or not and however written, every valid handle (well-formed, not in
use, of a runnable enclave) and every argument the call returns the NotInitialized status,
a negative value, no handler executes and the enclave state is left as it was. -/
theorem not_initialized_gate (e : Enclave) (op1 op2 : Reg) (rf : RegFile) (w : EnclaveWorld)
    (ecall_num : CExpr .additive) (ord tcs a0 : Nat)
    (hord : ecall_num.evalCast = some ord) (ha : ValidAlloc op1 op2 ord tcs)
    (hh : enterable e w (tcs % 2 ^ 64) = true)
    (hs : w.mem e.sentinelLoc ≠ INIT_MAGIC) :
    SGX_ENTER_1_ARG (enclave_sgx_ecall e) op1 op2 rf w ecall_num tcs a0 =
      some e.codes.notInit ∧
    e.codes.notInit < 0 ∧
    (SGX_ENTER_1_ARG_asm (enclave_sgx_ecall e) op1 op2 rf w ecall_num tcs a0).map
      (fun m => m.world.executed) = some w.executed ∧
    (SGX_ENTER_1_ARG_asm (enclave_sgx_ecall e) op1 op2 rf w ecall_num tcs a0).map
      Machine.world = some w := by
  have hc := enclave_call_eq e op1 op2 rf w ecall_num tcs a0 ord hord ha hh
  rw [dispatch_guard e w _ _ _ hs] at hc
  refine ⟨?_, e.codes.negative.2, ?_, hc.2⟩
  · rw [hc.1]
    exact congrArg some (int_ret_cast_uint64 _ e.codes.fits.2.1.1 e.codes.fits.2.1.2)
  · cases hm : SGX_ENTER_1_ARG_asm (enclave_sgx_ecall e) op1 op2 rf w ecall_num tcs a0 with
    | none =>
      have h2 := hc.2
      simp [hm] at h2
    | some m =>
      have h2 := hc.2
      simp [hm] at h2
      simp [h2]

/-- Witness of C3, amended: `call(0, tcs, 0)` on a valid handle before the sentinel is
written yields NotInitialized. -/
theorem not_initialized_gate_witness :
    SGX_ENTER_1_ARG (enclave_sgx_ecall zeroEnclave) .rcx .rdx (fun _ => 0) unwritten
      (CExpr.lit .int 0) 0x7000 0 = some zeroEnclave.codes.notInit ∧
    zeroEnclave.codes.notInit < 0 ∧
    (SGX_ENTER_1_ARG_asm (enclave_sgx_ecall zeroEnclave) .rcx .rdx (fun _ => 0) unwritten
      (CExpr.lit .int 0) 0x7000 0).map (fun m => m.world.executed) =
        some unwritten.executed ∧
    (SGX_ENTER_1_ARG_asm (enclave_sgx_ecall zeroEnclave) .rcx .rdx (fun _ => 0) unwritten
      (CExpr.lit .int 0) 0x7000 0).map Machine.world = some unwritten :=
  not_initialized_gate zeroEnclave .rcx .rdx (fun _ => 0) unwritten (CExpr.lit .int 0) 0
    0x7000 0 (by decide) (by decide) (by decide) (by decide)

/-! ## Calls in parallel -/

end SgxCall
